import Mathlib

/-!
Verification development for the KronosOS kernel memory manager, scheduler,
ELF loader and syscall layer.  The definitions below are shallow embeddings
of the C sources under `src/kernel/src`:

* `pmm.c`   — physical frame allocator (byte bitmap, first-fit scan)
* `vmm.c`   — 4-level page tables, map/unmap/translate, address spaces
* `scheduler.c` — task table and ready queue
* `elf.c`   — PT_LOAD segment flag computation
* `syscalls.c` — `sys_brk`

Machine integers are modelled as `Nat` with explicit masking where the C
code masks; physical memory holding page tables is a total function from
frame base address and entry index to the 64-bit entry value; `NULL`
pointers are address `0`, exactly as the C null checks treat them.
-/

set_option maxHeartbeats 1000000

namespace Kronos

/-! ## Physical memory manager (`pmm.c`)

`PMMState` is the post-`pmm_init` state of the allocator globals:
`page_bitmap` (a byte array), `pmm_config.kernel_start` and
`pmm_config.max_pages`.  `pmm_config.kernel_end` is computed at init as
`kernel_start + max_pages * page_size` and never changed, so it is a
derived value here. -/

def pageSize4K : Nat := 4096

structure PMMState where
  bitmap : List Nat
  kernelStart : Nat
  maxPages : Nat
deriving DecidableEq, Repr

def kernelEnd (s : PMMState) : Nat := s.kernelStart + s.maxPages * pageSize4K

/-- Bit `i` of the bitmap: `page_bitmap[i / 8] & (1 << (i % 8))`. -/
def pmmGetBit (s : PMMState) (i : Nat) : Bool :=
  (s.bitmap.getD (i / 8) 0).testBit (i % 8)

/-- `page_bitmap[i / 8] |= 1 << (i % 8)`. -/
def pmmSetBit (s : PMMState) (i : Nat) : PMMState :=
  { s with bitmap := s.bitmap.set (i / 8) (s.bitmap.getD (i / 8) 0 ||| (1 <<< (i % 8))) }

/-- `page_bitmap[i / 8] &= ~(1 << (i % 8))` (on a `uint8_t`). -/
def pmmClearBit (s : PMMState) (i : Nat) : PMMState :=
  { s with bitmap := s.bitmap.set (i / 8) (s.bitmap.getD (i / 8) 0 &&& (255 ^^^ (1 <<< (i % 8)))) }

/-- The scan loop of `pmm_alloc_page`: starting at index `i` with
`fuel` iterations left, return the first index whose bit is clear. -/
def pmmScan (s : PMMState) (i fuel : Nat) : Option Nat :=
  match fuel with
  | 0 => none
  | fuel + 1 => if pmmGetBit s i then pmmScan s (i + 1) fuel else some i

/-- `pmm_alloc_page`: first-fit scan over `max_pages` bits; on a hit the bit
is set and `kernel_start + i * page_size` is returned.  `none` is the C
`NULL` return at loop exhaustion. -/
def pmmAllocPage (s : PMMState) : Option (Nat × PMMState) :=
  match pmmScan s 0 s.maxPages with
  | none => none
  | some i => some (s.kernelStart + i * pageSize4K, pmmSetBit s i)

/-- `pmm_free_page`: bounds/alignment checks, then double-free check, then
clear the bit.  Every error path returns with the state unchanged. -/
def pmmFreePage (s : PMMState) (page : Nat) : PMMState :=
  if page < s.kernelStart ∨ kernelEnd s ≤ page ∨ page % pageSize4K ≠ 0 then s
  else
    let pageIndex := (page - s.kernelStart) / pageSize4K
    if s.maxPages ≤ pageIndex then s
    else if pmmGetBit s pageIndex = false then s
    else pmmClearBit s pageIndex

/-- `pmm_is_page_free`. -/
def pmmIsPageFree (s : PMMState) (page : Nat) : Bool :=
  if page < s.kernelStart ∨ kernelEnd s ≤ page ∨ page % pageSize4K ≠ 0 then false
  else
    let pageIndex := (page - s.kernelStart) / pageSize4K
    if s.maxPages ≤ pageIndex then false
    else !(pmmGetBit s pageIndex)

/-! ## Virtual memory manager (`vmm.c`)

Physical memory holding page tables is a total function `Mem` from a
frame's physical base address and an entry index to the 64-bit entry
value.  `NULL` pointers are address `0`: `phys_to_virt` returns `NULL`
exactly for physical address `0`, and every C null check below is a
comparison with `0`.  Page tables are read and written through the HHDM
(or, for `create_page_table`, through the identity-mapped low range that
`pmm_alloc_page` addresses live in, where `virt_to_phys` is the
identity), so all accesses are modelled directly at the physical level. -/

def ADDR_MASK : Nat := 0xFFFFFFFFFFFFF000

def PAGE_PRESENT : Nat := 1
def PAGE_WRITABLE : Nat := 2
def PAGE_USER : Nat := 4
def PAGE_WRITETHROUGH : Nat := 8
def PAGE_CACHE_DISABLE : Nat := 16
def PAGE_HUGE : Nat := 128
def PAGE_GLOBAL : Nat := 256
def PAGE_NO_EXECUTE : Nat := 2 ^ 63

def VMM_FLAG_PRESENT : Nat := 1
def VMM_FLAG_WRITABLE : Nat := 2
def VMM_FLAG_USER : Nat := 4
def VMM_FLAG_WRITETHROUGH : Nat := 8
def VMM_FLAG_NOCACHE : Nat := 16
def VMM_FLAG_GLOBAL : Nat := 256
def VMM_FLAG_NO_EXECUTE : Nat := 512
def VMM_FLAG_HUGE : Nat := 1024

def pml4Index (addr : Nat) : Nat := (addr >>> 39) &&& 0x1FF
def pdptIndex (addr : Nat) : Nat := (addr >>> 30) &&& 0x1FF
def pdIndex (addr : Nat) : Nat := (addr >>> 21) &&& 0x1FF
def ptIndex (addr : Nat) : Nat := (addr >>> 12) &&& 0x1FF

/-- `entry & PAGE_ADDR_MASK`, with `PAGE_ADDR_MASK = ~0xFFFULL`; note the
mask keeps bit 63 (the NX bit), exactly as the C constant does. -/
def entryAddr (e : Nat) : Nat := e &&& ADDR_MASK

def Mem : Type := Nat → Nat → Nat

def memWrite (m : Mem) (f i v : Nat) : Mem :=
  fun g j => if g = f ∧ j = i then v else m g j

/-- `memset(phys_to_virt(f), 0, PAGE_SIZE_4K)`. -/
def zeroFrame (m : Mem) (f : Nat) : Mem :=
  fun g j => if g = f then 0 else m g j

/-- `vmm_memory_region_t`. -/
structure Region where
  base : Nat
  size : Nat
  flags : Nat
  isUsed : Bool
deriving DecidableEq, Repr

/-- The VMM globals after `vmm_init`: the page-table memory, the current
PML4 (`current_pml4_phys`), `vmm_config.using_nx`, `hhdm_offset`, the PMM
state (page tables are allocated from the PMM), and the two memory-area
arrays used by `vmm_allocate`. -/
structure VMMState where
  mem : Mem
  pml4 : Nat
  usingNX : Bool
  hhdm : Nat
  pmm : PMMState
  userAreas : List Region
  kernelAreas : List Region

/-- The VMM-flag to hardware-flag translation at the top of
`vmm_map_page` (the sequential `|=` steps, written as one or-chain). -/
def hwFlags (usingNX : Bool) (flags : Nat) : Nat :=
  PAGE_PRESENT
  ||| (if flags &&& VMM_FLAG_WRITABLE ≠ 0 then PAGE_WRITABLE else 0)
  ||| (if flags &&& VMM_FLAG_USER ≠ 0 then PAGE_USER else 0)
  ||| (if flags &&& VMM_FLAG_WRITETHROUGH ≠ 0 then PAGE_WRITETHROUGH else 0)
  ||| (if flags &&& VMM_FLAG_NOCACHE ≠ 0 then PAGE_CACHE_DISABLE else 0)
  ||| (if flags &&& VMM_FLAG_GLOBAL ≠ 0 then PAGE_GLOBAL else 0)
  ||| (if flags &&& VMM_FLAG_HUGE ≠ 0 then PAGE_HUGE else 0)
  ||| (if flags &&& VMM_FLAG_NO_EXECUTE ≠ 0 ∧ usingNX = true then PAGE_NO_EXECUTE else 0)

/-- The entry `vmm_map_page` installs for a freshly allocated table `t`:
`t | PAGE_PRESENT | PAGE_WRITABLE`, plus `PAGE_USER` when the virtual
address is in the lower half (`virt < 0x8000000000000000ULL`). -/
def newTableEntry (t virt : Nat) : Nat :=
  let e := t ||| PAGE_PRESENT ||| PAGE_WRITABLE
  if virt < 2 ^ 63 then e ||| PAGE_USER else e

/-- One "ensure the next-level table exists" step of `vmm_map_page`: if the
entry at `(frame, idx)` is not present, allocate a table from the PMM
(failure if the allocator returns `NULL`), zero it, and install it with
`PRESENT|WRITABLE` plus `USER` for lower-half virtual addresses. -/
def ensureTable (s : VMMState) (frame idx virt : Nat) : Bool × VMMState :=
  if (s.mem frame idx).testBit 0 then (true, s)
  else
    match pmmAllocPage s.pmm with
    | none => (false, s)
    | some (t, pmm') =>
      if t = 0 then (false, { s with pmm := pmm' })
      else
        (true, { s with pmm := pmm', mem := memWrite (zeroFrame s.mem t) frame idx (newTableEntry t virt) })

/-- `vmm_map_page`. -/
def vmmMapPage (s : VMMState) (virtArg physArg flags : Nat) : Bool × VMMState :=
  if virtArg = 0 then (false, s)
  else if physArg = 0 then (false, s)
  else
    let virt := virtArg &&& ADDR_MASK
    let phys := physArg &&& ADDR_MASK
    if s.pml4 = 0 then (false, s)
    else
      let hw := hwFlags s.usingNX flags
      match ensureTable s s.pml4 (pml4Index virt) virt with
      | (false, s1) => (false, s1)
      | (true, s1) =>
        let pdpt := entryAddr (s1.mem s1.pml4 (pml4Index virt))
        if pdpt = 0 then (false, s1)
        else
          match ensureTable s1 pdpt (pdptIndex virt) virt with
          | (false, s2) => (false, s2)
          | (true, s2) =>
            let pd := entryAddr (s2.mem pdpt (pdptIndex virt))
            if pd = 0 then (false, s2)
            else
              match ensureTable s2 pd (pdIndex virt) virt with
              | (false, s3) => (false, s3)
              | (true, s3) =>
                let pt := entryAddr (s3.mem pd (pdIndex virt))
                if pt = 0 then (false, s3)
                else
                  (true, { s3 with mem := memWrite s3.mem pt (ptIndex virt) (phys ||| hw) })

/-- `vmm_unmap_page`. -/
def vmmUnmapPage (s : VMMState) (virtArg : Nat) : Bool × VMMState :=
  if virtArg = 0 then (false, s)
  else
    let virt := virtArg &&& ADDR_MASK
    if s.pml4 = 0 then (false, s)
    else
      let e4 := s.mem s.pml4 (pml4Index virt)
      if ¬ e4.testBit 0 then (false, s)
      else
        let pdpt := entryAddr e4
        if pdpt = 0 then (false, s)
        else
          let e3 := s.mem pdpt (pdptIndex virt)
          if ¬ e3.testBit 0 then (false, s)
          else if e3.testBit 7 then
            (true, { s with mem := memWrite s.mem pdpt (pdptIndex virt) 0 })
          else
            let pd := entryAddr e3
            if pd = 0 then (false, s)
            else
              let e2 := s.mem pd (pdIndex virt)
              if ¬ e2.testBit 0 then (false, s)
              else if e2.testBit 7 then
                (true, { s with mem := memWrite s.mem pd (pdIndex virt) 0 })
              else
                let pt := entryAddr e2
                if pt = 0 then (false, s)
                else
                  let e1 := s.mem pt (ptIndex virt)
                  if ¬ e1.testBit 0 then (false, s)
                  else (true, { s with mem := memWrite s.mem pt (ptIndex virt) 0 })

/-- `virt_to_phys` / `vmm_get_physical_address`: `0` is the C "not mapped"
return. -/
def virtToPhys (s : VMMState) (addr : Nat) : Nat :=
  if s.hhdm ≤ addr then addr - s.hhdm
  else if s.pml4 = 0 then 0
  else
    let e4 := s.mem s.pml4 (pml4Index addr)
    if ¬ e4.testBit 0 then 0
    else
      let pdpt := entryAddr e4
      if pdpt = 0 then 0
      else
        let e3 := s.mem pdpt (pdptIndex addr)
        if ¬ e3.testBit 0 then 0
        else if e3.testBit 7 then entryAddr e3 + (addr &&& 0x3FFFFFFF)
        else
          let pd := entryAddr e3
          if pd = 0 then 0
          else
            let e2 := s.mem pd (pdIndex addr)
            if ¬ e2.testBit 0 then 0
            else if e2.testBit 7 then entryAddr e2 + (addr &&& 0x1FFFFF)
            else
              let pt := entryAddr e2
              if pt = 0 then 0
              else
                let e1 := s.mem pt (ptIndex addr)
                if ¬ e1.testBit 0 then 0
                else entryAddr e1 + (addr &&& 0xFFF)

/-- `vmm_is_mapped`: any address at or above the HHDM offset is reported
mapped without consulting the page tables. -/
def vmmIsMapped (s : VMMState) (addr : Nat) : Bool :=
  if s.hhdm ≤ addr then true
  else if s.pml4 = 0 then false
  else
    let e4 := s.mem s.pml4 (pml4Index addr)
    if ¬ e4.testBit 0 then false
    else
      let pdpt := entryAddr e4
      if pdpt = 0 then false
      else
        let e3 := s.mem pdpt (pdptIndex addr)
        if ¬ e3.testBit 0 then false
        else if e3.testBit 7 then true
        else
          let pd := entryAddr e3
          if pd = 0 then false
          else
            let e2 := s.mem pd (pdIndex addr)
            if ¬ e2.testBit 0 then false
            else if e2.testBit 7 then true
            else
              let pt := entryAddr e2
              if pt = 0 then false
              else (s.mem pt (ptIndex addr)).testBit 0

/-- `create_page_table`: allocate a frame from the PMM, zero it, return
its physical address (`0` on allocation failure).  The allocator hands
back addresses in the identity-mapped low range, where `virt_to_phys` of
the returned pointer is the address itself. -/
def createPageTable (s : VMMState) : Nat × VMMState :=
  match pmmAllocPage s.pmm with
  | none => (0, s)
  | some (t, pmm') =>
    if t = 0 then (0, { s with pmm := pmm' })
    else (t, { s with pmm := pmm', mem := zeroFrame s.mem t })

/-- The upper-half copy loop of `vmm_create_address_space`:
`for (i = start; i < start + n; i++) dst[i] = src[i]`. -/
def copyEntries (src dst : Nat) (m : Mem) (i n : Nat) : Mem :=
  match n with
  | 0 => m
  | n + 1 => copyEntries src dst (memWrite m dst i (m src i)) (i + 1) n

/-- `vmm_create_address_space`. -/
def vmmCreateAddressSpace (s : VMMState) : Nat × VMMState :=
  let r := createPageTable s
  if r.fst = 0 then (0, r.snd)
  else (r.fst, { r.snd with mem := copyEntries r.snd.pml4 r.fst r.snd.mem 256 256 })

/-- `find_free_area`: index of the first region that is not in use and at
least `size` bytes large (the `flags` parameter of the C function is
unused by it). -/
def findFreeArea (areas : List Region) (size : Nat) : Option Nat :=
  areas.findIdx? (fun a => !a.isUsed && decide (size ≤ a.size))

def setAreaUsed (areas : List Region) (idx : Nat) (b : Bool) : List Region :=
  areas.set idx { areas.getD idx ⟨0, 0, 0, false⟩ with isUsed := b }

/-- The failure clean-up loop of `vmm_allocate`: for `j` in `0..i-1`, read
the physical frame behind `base + j*4096`, unmap it and free the frame. -/
def allocCleanup (s : VMMState) (base : Nat) : Nat → VMMState
  | 0 => s
  | j + 1 =>
    let s1 := allocCleanup s base j
    let addr := base + j * pageSize4K
    let pphys := virtToPhys s1 addr
    let s2 := (vmmUnmapPage s1 addr).snd
    { s2 with pmm := pmmFreePage s2.pmm pphys }

/-- The page loop of `vmm_allocate`: allocate a frame, map it at
`base + i*4096` with `flags | area->flags`, zero it; on failure run the
clean-up loop over the pages mapped so far. -/
def vmmAllocateLoop (s : VMMState) (base flags areaFlags i : Nat) :
    Nat → Bool × VMMState
  | 0 => (true, s)
  | r + 1 =>
    match pmmAllocPage s.pmm with
    | none => (false, allocCleanup s base i)
    | some (physv, pmm') =>
      if physv = 0 then (false, allocCleanup { s with pmm := pmm' } base i)
      else
        let s1 : VMMState := { s with pmm := pmm' }
        match vmmMapPage s1 (base + i * pageSize4K) physv (flags ||| areaFlags) with
        | (false, s2) =>
          (false, allocCleanup { s2 with pmm := pmmFreePage s2.pmm physv } base i)
        | (true, s2) =>
          vmmAllocateLoop { s2 with mem := zeroFrame s2.mem physv }
            base flags areaFlags (i + 1) r

/-- `vmm_allocate`: `0` is the C `NULL` return.  The size is rounded up to
whole pages with 64-bit wrap-around, exactly as
`(size + PAGE_SIZE_4K - 1) & ~(PAGE_SIZE_4K - 1)` computes it. -/
def vmmAllocate (s : VMMState) (size flags : Nat) : Nat × VMMState :=
  if size = 0 then (0, s)
  else
    let sizeR := (size + pageSize4K - 1) % 2 ^ 64 / pageSize4K * pageSize4K
    let pageCount := sizeR / pageSize4K
    let isUser := flags &&& VMM_FLAG_USER ≠ 0
    let areas := if isUser then s.userAreas else s.kernelAreas
    match findFreeArea areas sizeR with
    | none => (0, s)
    | some idx =>
      let area := areas.getD idx ⟨0, 0, 0, false⟩
      let s1 := if isUser then { s with userAreas := setAreaUsed s.userAreas idx true }
                else { s with kernelAreas := setAreaUsed s.kernelAreas idx true }
      match vmmAllocateLoop s1 area.base flags area.flags 0 pageCount with
      | (true, s2) => (area.base, s2)
      | (false, s2) =>
        (0, if isUser then { s2 with userAreas := setAreaUsed s2.userAreas idx false }
            else { s2 with kernelAreas := setAreaUsed s2.kernelAreas idx false })

/-! ## Scheduler (`scheduler.c`)

The task table is a list of task records; the ready and blocked queues
are lists of TIDs in queue order (the C code links the `task_t` nodes
directly).  `free_task_resources` returns the task's page table and stack
to the memory managers; here it clears the task's handles. -/

inductive TaskState
  | taskNew | ready | running | blocked | terminated
deriving DecidableEq, Repr

structure Task where
  tid : Nat
  state : TaskState
  exitCode : Int
  pageTable : Nat
deriving DecidableEq, Repr

structure SchedState where
  tasks : List Task
  readyQueue : List Nat
  blockedQueue : List Nat
deriving DecidableEq, Repr

/-- `scheduler_get_task_by_id`: linear scan of the task table. -/
def getTaskById (s : SchedState) (tid : Nat) : Option Task :=
  s.tasks.find? (fun t => t.tid == tid)

/-- `remove_from_ready_queue` (unlink the node wherever it is). -/
def removeFromReadyQueue (q : List Nat) (tid : Nat) : List Nat :=
  q.filter (fun x => x != tid)

/-- `remove_from_blocked_queue`. -/
def removeFromBlockedQueue (q : List Nat) (tid : Nat) : List Nat :=
  q.filter (fun x => x != tid)

/-- `scheduler_terminate_task`.  Note the C code sets
`task->state = TASK_STATE_TERMINATED` first and only then tests
`task->state == TASK_STATE_READY` / `== TASK_STATE_BLOCKED` to decide
which queue to unlink the task from; the embedding reproduces that order
faithfully (the test reads the already-updated state). -/
def schedulerTerminateTask (s : SchedState) (tid : Nat) (code : Int) :
    Bool × SchedState :=
  match getTaskById s tid with
  | none => (false, s)
  | some t =>
    if t.state = TaskState.terminated then (false, s)
    else
      let t' : Task := { t with state := TaskState.terminated, exitCode := code }
      let s1 : SchedState :=
        { s with tasks := s.tasks.map (fun (u : Task) => if u.tid == tid then t' else u) }
      let s2 : SchedState :=
        if t'.state = TaskState.ready then
          { s1 with readyQueue := removeFromReadyQueue s1.readyQueue tid }
        else if t'.state = TaskState.blocked then
          { s1 with blockedQueue := removeFromBlockedQueue s1.blockedQueue tid }
        else s1
      let cleared : List Task :=
        s2.tasks.map (fun (u : Task) => if u.tid == tid then { u with pageTable := 0 } else u)
      let s3 : SchedState := { s2 with tasks := cleared }
      (true, s3)

/-! ## ELF loader (`elf.c`) -/

def PT_LOAD : Nat := 1
def PF_X : Nat := 1
def PF_W : Nat := 2
def PF_R : Nat := 4

/-- The mapping-flag computation of `elf_load_segments` for a `PT_LOAD`
segment with program-header flags `pflags`:
`flags = VMM_FLAG_PRESENT; if (PF_W) |= WRITABLE; if (!PF_X) |= NO_EXECUTE;`. -/
def elfSegmentFlags (pflags : Nat) : Nat :=
  let f := VMM_FLAG_PRESENT
  let f := if pflags &&& PF_W ≠ 0 then f ||| VMM_FLAG_WRITABLE else f
  if pflags &&& PF_X = 0 then f ||| VMM_FLAG_NO_EXECUTE else f

/-! ## Syscalls (`syscalls.c`) -/

/-- Two's-complement reading of a 64-bit value as a C `long` (the
`(long)new_brk` cast in `sys_brk`). -/
def toLong (n : Nat) : Int :=
  if n % 2 ^ 64 < 2 ^ 63 then (n % 2 ^ 64 : Int) else (n % 2 ^ 64 : Int) - 2 ^ 64

/-- `sys_brk`: `vmm_allocate((size_t)addr, USER|WRITABLE)`; `-1` when the
allocation returns `NULL`, otherwise the allocation's address. -/
def sysBrk (s : VMMState) (addr : Nat) : Int × VMMState :=
  let r := vmmAllocate s addr (VMM_FLAG_USER ||| VMM_FLAG_WRITABLE)
  if r.fst = 0 then (-1, r.snd) else (toLong r.fst, r.snd)

/-! ## Concrete states used by counterexamples and witnesses -/

/-- A page-table state whose walk for virtual address `0x400000`
(indices PML4=0, PDPT=0, PD=2, PT=0) is fully populated down to a page
table at `0x4000` with a non-present terminal entry; NX is supported. -/
def cexMem : Mem := fun f i =>
  if f = 0x1000 ∧ i = 0 then 0x2003
  else if f = 0x2000 ∧ i = 0 then 0x3003
  else if f = 0x3000 ∧ i = 2 then 0x4003
  else 0

def cexPMM : PMMState := ⟨[255], 0x100000, 8⟩

def cexVMM : VMMState :=
  ⟨cexMem, 0x1000, true, 0xffff800000000000, cexPMM, [], []⟩

/-- Like `cexVMM` but with the walk for virtual page `0` populated
(indices all `0`). -/
def cexMemNull : Mem := fun f i =>
  if f = 0x1000 ∧ i = 0 then 0x2003
  else if f = 0x2000 ∧ i = 0 then 0x3003
  else if f = 0x3000 ∧ i = 0 then 0x4003
  else 0

def cexVMMNull : VMMState :=
  ⟨cexMemNull, 0x1000, true, 0xffff800000000000, cexPMM, [], []⟩

/-- A scheduler state with one live task, TID 1, Ready and in the ready
queue. -/
def cexSched : SchedState :=
  ⟨[⟨1, TaskState.ready, 0, 0x7000⟩], [1], []⟩

/-- Like `cexVMM` but with an empty (all-free) PMM bitmap, so that
`create_page_table` succeeds and hands out frame `0x100000`. -/
def cexVMMFree : VMMState :=
  ⟨cexMem, 0x1000, true, 0xffff800000000000, ⟨[0], 0x100000, 8⟩, [], []⟩

/-- A state with an empty PML4 (no entry present anywhere) and an all-free
PMM bitmap: mapping anything must allocate all three intermediate
tables (frames `0x100000`, `0x101000`, `0x102000` in that order). -/
def cexVMMEmpty : VMMState :=
  ⟨(fun _ _ => 0), 0x1000, true, 0xffff800000000000, ⟨[0], 0x100000, 8⟩, [], []⟩

/-- The four-level walk structure `vmm_map_page` leaves behind for `virt`:
present entries leading from the current PML4 through frames
`pdpt`, `pd`, `pt` (non-huge at the PDPT and PD levels, where the
translation checks the HUGE bit), with terminal entry `e1`, and the
terminal frame distinct from the three table frames above it. -/
def walkPath (s : VMMState) (virt pdpt pd pt e1 : Nat) : Prop :=
  (s.mem s.pml4 (pml4Index virt)).testBit 0 = true ∧
  entryAddr (s.mem s.pml4 (pml4Index virt)) = pdpt ∧ pdpt ≠ 0 ∧
  (s.mem pdpt (pdptIndex virt)).testBit 0 = true ∧
  (s.mem pdpt (pdptIndex virt)).testBit 7 = false ∧
  entryAddr (s.mem pdpt (pdptIndex virt)) = pd ∧ pd ≠ 0 ∧
  (s.mem pd (pdIndex virt)).testBit 0 = true ∧
  (s.mem pd (pdIndex virt)).testBit 7 = false ∧
  entryAddr (s.mem pd (pdIndex virt)) = pt ∧ pt ≠ 0 ∧
  s.mem pt (ptIndex virt) = e1 ∧
  pt ≠ s.pml4 ∧ pt ≠ pdpt ∧ pt ≠ pd

/-- The map/translate/unmap round trip of claim C2: the map call reports
success, translation then yields the mapped frame, and unmapping succeeds
and leaves the address unmapped with translation 0. -/
def mapRoundTrip (s : VMMState) (virt phys flags : Nat) : Prop :=
  (vmmMapPage s virt phys flags).fst = true ∧
  virtToPhys (vmmMapPage s virt phys flags).snd virt = phys ∧
  (vmmUnmapPage (vmmMapPage s virt phys flags).snd virt).fst = true ∧
  vmmIsMapped (vmmUnmapPage (vmmMapPage s virt phys flags).snd virt).snd virt = false ∧
  virtToPhys (vmmUnmapPage (vmmMapPage s virt phys flags).snd virt).snd virt = 0

/-! Helper lemmas about the bitmap. -/

theorem pmmScan_spec (s : PMMState) :
    ∀ fuel i j, pmmScan s i fuel = some j →
      i ≤ j ∧ j < i + fuel ∧ pmmGetBit s j = false ∧
      ∀ k, i ≤ k → k < j → pmmGetBit s k = true := by
  intro fuel
  induction fuel with
  | zero => intro i j h; simp [pmmScan] at h
  | succ n ih =>
    intro i j h
    by_cases hb : pmmGetBit s i
    · have h' : pmmScan s (i + 1) n = some j := by
        simpa [pmmScan, hb] using h
      obtain ⟨h1, h2, h3, h4⟩ := ih (i + 1) j h'
      refine ⟨by omega, by omega, h3, ?_⟩
      intro k hk1 hk2
      rcases Nat.eq_or_lt_of_le hk1 with rfl | hk
      · exact hb
      · exact h4 k hk hk2
    · have hj : j = i := by
        have := h
        simp [pmmScan, hb] at this
        omega
      subst hj
      exact ⟨le_refl _, by omega, by simpa using hb, fun k hk1 hk2 => absurd hk1 (by omega)⟩

theorem pmmGetBit_setBit_self (s : PMMState) (i : Nat)
    (h : i / 8 < s.bitmap.length) :
    pmmGetBit (pmmSetBit s i) i = true := by
  unfold pmmGetBit pmmSetBit
  simp only [List.getD, List.get?_eq_getElem?]
  rw [List.getElem?_set_self (by simpa using h)]
  simp [Nat.testBit_or, Nat.testBit_shiftLeft]

/-- Claim C1 auxiliary: a successful allocation exposes the first clear bit. -/
theorem pmmAllocPage_eq (s : PMMState) (addr : Nat) (s' : PMMState)
    (h : pmmAllocPage s = some (addr, s')) :
    ∃ i, pmmScan s 0 s.maxPages = some i ∧
      addr = s.kernelStart + i * pageSize4K ∧ s' = pmmSetBit s i := by
  unfold pmmAllocPage at h
  cases hscan : pmmScan s 0 s.maxPages with
  | none => rw [hscan] at h; simp at h
  | some i =>
    rw [hscan] at h
    simp at h
    exact ⟨i, rfl, h.1.symm, h.2.symm⟩

/-- Claim C1: a successful `pmm_alloc_page` returns the physical address of
the lowest-index clear bit of the bitmap (first fit); the address is
4096-aligned (given the managed window base is aligned, as `pmm_init`
guarantees for Limine regions), lies in `[kernel_start, kernel_end)`, and
the call transitions that bit from clear to set. -/
theorem C1_alloc_first_fit (s : PMMState) (addr : Nat) (s' : PMMState)
    (halign : s.kernelStart % pageSize4K = 0)
    (hwf : s.maxPages ≤ 8 * s.bitmap.length)
    (h : pmmAllocPage s = some (addr, s')) :
    addr % pageSize4K = 0 ∧ s.kernelStart ≤ addr ∧ addr < kernelEnd s ∧
    ∃ i, addr = s.kernelStart + i * pageSize4K ∧ i < s.maxPages ∧
      pmmGetBit s i = false ∧ pmmGetBit s' i = true ∧
      (∀ k, k < i → pmmGetBit s k = true) ∧ s' = pmmSetBit s i := by
  obtain ⟨i, hscan, haddr, hs'⟩ := pmmAllocPage_eq s addr s' h
  obtain ⟨-, hlt, hclear, hfirst⟩ := pmmScan_spec s s.maxPages 0 i hscan
  have hi : i < s.maxPages := by omega
  have hib : i / 8 < s.bitmap.length := by
    have : i < 8 * s.bitmap.length := by omega
    omega
  refine ⟨?_, ?_, ?_, i, haddr, hi, hclear, ?_, fun k hk => hfirst k (Nat.zero_le k) hk, hs'⟩
  · subst haddr
    simp [Nat.add_mul_mod_self_right, halign]
  · subst haddr; exact Nat.le_add_right _ _
  · subst haddr
    unfold kernelEnd
    have : i * pageSize4K < s.maxPages * pageSize4K :=
      (Nat.mul_lt_mul_right (by norm_num [pageSize4K])).mpr hi
    omega
  · subst hs'; exact pmmGetBit_setBit_self s i hib

theorem testBit_one_shiftLeft_self (k : Nat) : ((1 : Nat) <<< k).testBit k = true := by
  simp [Nat.testBit_shiftLeft]

theorem testBit_one_shiftLeft_ne {k j : Nat} (h : j ≠ k) :
    ((1 : Nat) <<< k).testBit j = false := by
  rcases Nat.lt_or_ge j k with hlt | hge
  · simp [Nat.testBit_shiftLeft, Nat.not_le.mpr hlt]
  · have hd : j - k ≠ 0 := by omega
    cases hb : (1 : Nat).testBit (j - k) with
    | false => simp [Nat.testBit_shiftLeft, hge, hb]
    | true => exact absurd (Nat.testBit_one_eq_true_iff_self_eq_zero.mp hb) hd

theorem testBit_255 {k : Nat} (h : k < 8) : (255 : Nat).testBit k = true := by
  have h255 : (255 : Nat) = 2 ^ 8 - 1 := by norm_num
  rw [h255, Nat.testBit_two_pow_sub_one]
  simpa using h

theorem pmmGetBit_clearBit_self (s : PMMState) (i : Nat)
    (h : i / 8 < s.bitmap.length) :
    pmmGetBit (pmmClearBit s i) i = false := by
  unfold pmmGetBit pmmClearBit
  simp only [List.getD, List.get?_eq_getElem?]
  rw [List.getElem?_set_self (by simpa using h)]
  simp only [Option.getD_some]
  rw [Nat.testBit_and, Nat.testBit_xor,
    testBit_255 (Nat.mod_lt _ (by norm_num)), testBit_one_shiftLeft_self]
  simp

theorem pmmGetBit_clearBit_other (s : PMMState) (i j : Nat) (hne : j ≠ i) :
    pmmGetBit (pmmClearBit s i) j = pmmGetBit s j := by
  unfold pmmGetBit pmmClearBit
  simp only [List.getD, List.get?_eq_getElem?]
  by_cases hb : j / 8 = i / 8
  · have hmod : j % 8 ≠ i % 8 := by
      have h1 := Nat.div_add_mod j 8
      have h2 := Nat.div_add_mod i 8
      omega
    rw [hb, List.getElem?_set]
    by_cases hlen : i / 8 < s.bitmap.length
    · rw [if_pos rfl, if_pos hlen, List.getElem?_eq_getElem hlen]
      simp only [Option.getD_some]
      rw [Nat.testBit_and, Nat.testBit_xor,
        testBit_255 (Nat.mod_lt _ (by norm_num)), testBit_one_shiftLeft_ne hmod]
      simp
    · rw [if_pos rfl, if_neg hlen, List.getElem?_eq_none (by omega)]
  · rw [List.getElem?_set_ne (by omega)]

/-- Claim C8: `pmm_free_page` is atomic on error (unaligned, out-of-window
and double-free calls leave the bitmap unchanged) and a valid free clears
exactly the target frame's bit. -/
theorem C8_free_error_atomic :
    (∀ s page, (page % pageSize4K ≠ 0 ∨ page < s.kernelStart ∨ kernelEnd s ≤ page) →
        pmmFreePage s page = s) ∧
    (∀ s page, page % pageSize4K = 0 → s.kernelStart ≤ page → page < kernelEnd s →
        pmmGetBit s ((page - s.kernelStart) / pageSize4K) = false →
        pmmFreePage s page = s) ∧
    (∀ s page, page % pageSize4K = 0 → s.kernelStart ≤ page → page < kernelEnd s →
        pmmGetBit s ((page - s.kernelStart) / pageSize4K) = true →
        pmmFreePage s page = pmmClearBit s ((page - s.kernelStart) / pageSize4K) ∧
        pmmGetBit (pmmFreePage s page) ((page - s.kernelStart) / pageSize4K) = false ∧
        ∀ j, j ≠ (page - s.kernelStart) / pageSize4K →
          pmmGetBit (pmmFreePage s page) j = pmmGetBit s j) := by
  refine ⟨?_, ?_, ?_⟩
  · intro s page h
    unfold pmmFreePage
    rw [if_pos (by tauto)]
  · intro s page h1 h2 h3 h4
    unfold pmmFreePage
    simp only [kernelEnd, pageSize4K] at h1 h2 h3 h4 ⊢
    rw [if_neg (by omega), if_neg (by omega), if_pos h4]
  · intro s page h1 h2 h3 h4
    have heq : pmmFreePage s page =
        pmmClearBit s ((page - s.kernelStart) / pageSize4K) := by
      unfold pmmFreePage
      simp only [kernelEnd, pageSize4K] at h1 h2 h3 h4 ⊢
      rw [if_neg (by omega), if_neg (by omega), if_neg (by simp [h4])]
    have hib : (page - s.kernelStart) / pageSize4K / 8 < s.bitmap.length := by
      by_contra hc
      unfold pmmGetBit at h4
      rw [List.getD, List.get?_eq_getElem?, List.getElem?_eq_none (by omega)] at h4
      simp at h4
    exact ⟨heq, heq ▸ pmmGetBit_clearBit_self s _ hib,
      fun j hj => heq ▸ pmmGetBit_clearBit_other s _ j hj⟩

/-- Witness for C8 at a concrete state: window `[4096, 4096+8*4096)`,
bitmap byte `[2]` (bit 1 set).  Freeing unaligned address 5 is a no-op;
freeing already-free page 4096 is a no-op; freeing allocated page 8192
clears exactly bit 1. -/
theorem C8_free_error_atomic_witness :
    (5 % pageSize4K ≠ 0 ∧ pmmFreePage (PMMState.mk [2] 4096 8) 5 = PMMState.mk [2] 4096 8) ∧
    (4096 % pageSize4K = 0 ∧ (PMMState.mk [2] 4096 8).kernelStart ≤ 4096 ∧
      4096 < kernelEnd (PMMState.mk [2] 4096 8) ∧
      pmmGetBit (PMMState.mk [2] 4096 8) ((4096 - 4096) / pageSize4K) = false ∧
      pmmFreePage (PMMState.mk [2] 4096 8) 4096 = PMMState.mk [2] 4096 8) ∧
    (pmmGetBit (PMMState.mk [2] 4096 8) ((8192 - 4096) / pageSize4K) = true ∧
      pmmFreePage (PMMState.mk [2] 4096 8) 8192 =
        pmmClearBit (PMMState.mk [2] 4096 8) ((8192 - 4096) / pageSize4K) ∧
      pmmGetBit (pmmFreePage (PMMState.mk [2] 4096 8) 8192)
        ((8192 - 4096) / pageSize4K) = false) :=
  ⟨⟨by decide, C8_free_error_atomic.1 (PMMState.mk [2] 4096 8) 5 (Or.inl (by decide))⟩,
   ⟨by decide, by decide, by decide, by decide,
     C8_free_error_atomic.2.1 (PMMState.mk [2] 4096 8) 4096
       (by decide) (by decide) (by decide) (by decide)⟩,
   ⟨by decide,
     (C8_free_error_atomic.2.2 (PMMState.mk [2] 4096 8) 8192
       (by decide) (by decide) (by decide) (by decide)).1,
     (C8_free_error_atomic.2.2 (PMMState.mk [2] 4096 8) 8192
       (by decide) (by decide) (by decide) (by decide)).2.1⟩⟩

/-- Claim C9: `pmm_is_page_free` returns `false` for every unaligned or
out-of-window address, regardless of the bitmap contents, so only
in-window page-aligned addresses can ever be reported free. -/
theorem C9_is_page_free_window (s : PMMState) (page : Nat)
    (h : page % pageSize4K ≠ 0 ∨ page < s.kernelStart ∨ kernelEnd s ≤ page) :
    pmmIsPageFree s page = false := by
  unfold pmmIsPageFree
  rw [if_pos (by tauto)]

/-- Witness for C9: address 5 is unaligned, so it is reported not-free even
though the bitmap is all clear. -/
theorem C9_is_page_free_window_witness :
    (5 % pageSize4K ≠ 0 ∨ 5 < (PMMState.mk [0] 4096 8).kernelStart ∨
      kernelEnd (PMMState.mk [0] 4096 8) ≤ 5) ∧
    pmmIsPageFree (PMMState.mk [0] 4096 8) 5 = false :=
  ⟨Or.inl (by decide),
    C9_is_page_free_window (PMMState.mk [0] 4096 8) 5 (Or.inl (by decide))⟩

/-- Witness for C1 at a concrete state: bitmap byte `[1]` (bit 0 used),
window base 4096, 8 pages: allocation yields index 1, address 8192. -/
theorem C1_alloc_first_fit_witness :
    (PMMState.mk [1] 4096 8).kernelStart % pageSize4K = 0 ∧
    (PMMState.mk [1] 4096 8).maxPages ≤ 8 * (PMMState.mk [1] 4096 8).bitmap.length ∧
    pmmAllocPage (PMMState.mk [1] 4096 8) = some (8192, PMMState.mk [3] 4096 8) ∧
    (8192 % pageSize4K = 0 ∧ (PMMState.mk [1] 4096 8).kernelStart ≤ 8192 ∧
      8192 < kernelEnd (PMMState.mk [1] 4096 8) ∧
      ∃ i, 8192 = (PMMState.mk [1] 4096 8).kernelStart + i * pageSize4K ∧
        i < (PMMState.mk [1] 4096 8).maxPages ∧
        pmmGetBit (PMMState.mk [1] 4096 8) i = false ∧
        pmmGetBit (PMMState.mk [3] 4096 8) i = true ∧
        (∀ k, k < i → pmmGetBit (PMMState.mk [1] 4096 8) k = true) ∧
        PMMState.mk [3] 4096 8 = pmmSetBit (PMMState.mk [1] 4096 8) i) :=
  ⟨by decide, by decide, by decide,
    C1_alloc_first_fit (PMMState.mk [1] 4096 8) 8192 (PMMState.mk [3] 4096 8)
      (by decide) (by decide) (by decide)⟩

/-! ## VMM and scheduler theorems -/

/-- Claim C10: `vmm_is_mapped` returns `true` for every virtual address at
or above the HHDM offset, in every state, without consulting the page
tables — even when no page-table walk would find a present entry. -/
theorem C10_is_mapped_hhdm (s : VMMState) (addr : Nat) (h : s.hhdm ≤ addr) :
    vmmIsMapped s addr = true := by
  unfold vmmIsMapped
  rw [if_pos h]

/-- Witness for C10: in `cexVMM` no walk maps the HHDM base itself, yet it
is reported mapped. -/
theorem C10_is_mapped_hhdm_witness :
    cexVMM.hhdm ≤ 0xffff800000000000 ∧
    vmmIsMapped cexVMM 0xffff800000000000 = true :=
  ⟨by decide, C10_is_mapped_hhdm cexVMM 0xffff800000000000 (by decide)⟩

/-- Counterexample to claim C5 as stated: a read-only `PT_LOAD` segment
destined for the lower-half address `0x400000` receives flags
`PRESENT|NO_EXECUTE = 513`, with no `USER` bit, and the hardware
translation of those flags also carries no `PAGE_USER` bit. -/
theorem C5_counterexample :
    elfSegmentFlags PF_R = 513 ∧
    elfSegmentFlags PF_R &&& VMM_FLAG_USER = 0 ∧
    hwFlags true (elfSegmentFlags PF_R) &&& PAGE_USER = 0 ∧
    (0x400000 : Nat) < 2 ^ 63 :=
  ⟨by decide, by decide, by decide, by decide⟩

/-- Claim C5 (amended): the flags computed by `elf_load_segments` for a
`PT_LOAD` segment are exactly PRESENT always, WRITABLE iff `PF_W`,
NO_EXECUTE iff not `PF_X`; the loader never adds the USER flag. -/
theorem C5_elf_segment_flags (pflags : Nat) :
    (elfSegmentFlags pflags).testBit 0 = true ∧
    ((elfSegmentFlags pflags).testBit 1 = true ↔ pflags &&& PF_W ≠ 0) ∧
    ((elfSegmentFlags pflags).testBit 9 = true ↔ pflags &&& PF_X = 0) ∧
    (elfSegmentFlags pflags).testBit 2 = false := by
  by_cases h1 : pflags &&& PF_W ≠ 0 <;> by_cases h2 : pflags &&& PF_X = 0
  · have he : elfSegmentFlags pflags = 515 := by
      simp only [elfSegmentFlags]
      rw [if_pos h1, if_pos h2]
      decide
    rw [he]
    exact ⟨by decide, ⟨fun _ => h1, fun _ => by decide⟩,
      ⟨fun _ => h2, fun _ => by decide⟩, by decide⟩
  · have he : elfSegmentFlags pflags = 3 := by
      simp only [elfSegmentFlags]
      rw [if_pos h1, if_neg h2]
      decide
    rw [he]
    exact ⟨by decide, ⟨fun _ => h1, fun _ => by decide⟩,
      ⟨fun hc => absurd hc (by decide), fun hc => absurd hc h2⟩, by decide⟩
  · have he : elfSegmentFlags pflags = 513 := by
      simp only [elfSegmentFlags]
      rw [if_neg h1, if_pos h2]
      decide
    rw [he]
    exact ⟨by decide, ⟨fun hc => absurd hc (by decide), fun hc => absurd hc h1⟩,
      ⟨fun _ => h2, fun _ => by decide⟩, by decide⟩
  · have he : elfSegmentFlags pflags = 1 := by
      simp only [elfSegmentFlags]
      rw [if_neg h1, if_neg h2]
      decide
    rw [he]
    exact ⟨by decide, ⟨fun hc => absurd hc (by decide), fun hc => absurd hc h1⟩,
      ⟨fun hc => absurd hc (by decide), fun hc => absurd hc h2⟩, by decide⟩

/-- Counterexample to claim C7 as stated: `sys_brk(0)` returns `-1`, a
negative error value, not the current program break. -/
theorem C7_counterexample :
    (sysBrk cexVMM 0).fst = -1 ∧ (sysBrk cexVMM 0).fst < 0 :=
  ⟨by decide, by decide⟩

/-- Claim C7 (amended): `sys_brk` either returns `-1` (when `vmm_allocate`
returns `NULL`) or the nonzero address `vmm_allocate` returned, read as a
signed 64-bit value; there is no program-break tracking. -/
theorem C7_brk_result (s : VMMState) (addr : Nat) :
    (sysBrk s addr).fst = -1 ∨
    ((vmmAllocate s addr (VMM_FLAG_USER ||| VMM_FLAG_WRITABLE)).fst ≠ 0 ∧
      (sysBrk s addr).fst =
        toLong (vmmAllocate s addr (VMM_FLAG_USER ||| VMM_FLAG_WRITABLE)).fst) := by
  unfold sysBrk
  by_cases h : (vmmAllocate s addr (VMM_FLAG_USER ||| VMM_FLAG_WRITABLE)).fst = 0
  · rw [if_pos h]
    exact Or.inl rfl
  · rw [if_neg h]
    exact Or.inr ⟨h, rfl⟩

/-- Claim C4 (code bug): terminating the live Ready task with TID 1 reports
success and marks the task Terminated with the recorded exit code, but the
task is still a member of the ready queue afterwards: the queue-removal
branch of `scheduler_terminate_task` tests `task->state == TASK_STATE_READY`
only after the state has been overwritten with `TASK_STATE_TERMINATED`, so
it never fires. -/
theorem C4_terminate_leaves_ready_queue :
    (schedulerTerminateTask cexSched 1 7).fst = true ∧
    getTaskById (schedulerTerminateTask cexSched 1 7).snd 1 =
      some ⟨1, TaskState.terminated, 7, 0⟩ ∧
    1 ∈ (schedulerTerminateTask cexSched 1 7).snd.readyQueue :=
  ⟨by decide, by decide, by decide⟩

/-- Claim C6 (code bug): `vmm_map_page` rejects exactly `virt = 0` and
leaves the state untouched there, but an unaligned `virt = 5` — whose page
base is virtual page 0 — passes the check, is masked to 0, and the call
installs a present terminal entry that translates virtual page 0 to the
given frame. -/
theorem C6_null_page_mapped_via_unaligned_virt :
    vmmMapPage cexVMMNull 0 0x5000 0 = (false, cexVMMNull) ∧
    (vmmMapPage cexVMMNull 5 0x5000 0).fst = true ∧
    ((vmmMapPage cexVMMNull 5 0x5000 0).snd.mem 0x4000 0).testBit 0 = true ∧
    virtToPhys (vmmMapPage cexVMMNull 5 0x5000 0).snd 0 = 0x5000 :=
  ⟨rfl, by decide, by decide, by decide⟩

/-! Lemmas about `memWrite` and the upper-half copy loop. -/

theorem memWrite_self (m : Mem) (f i v : Nat) : memWrite m f i v f i = v := by
  simp [memWrite]

theorem memWrite_ne (m : Mem) (f i v g j : Nat) (h : g ≠ f ∨ j ≠ i) :
    memWrite m f i v g j = m g j := by
  unfold memWrite
  rw [if_neg]
  rintro ⟨h1, h2⟩
  rcases h with h | h
  · exact h h1
  · exact h h2

theorem copyEntries_other (src dst g j : Nat) (hg : g ≠ dst) :
    ∀ n m i, copyEntries src dst m i n g j = m g j := by
  intro n
  induction n with
  | zero => intro m i; rfl
  | succ k ih =>
    intro m i
    show copyEntries src dst (memWrite m dst i (m src i)) (i + 1) k g j = m g j
    rw [ih]
    exact memWrite_ne m dst i _ g j (Or.inl hg)

theorem copyEntries_lower (src dst j : Nat) :
    ∀ n m i, j < i → copyEntries src dst m i n dst j = m dst j := by
  intro n
  induction n with
  | zero => intro m i _; rfl
  | succ k ih =>
    intro m i h
    show copyEntries src dst (memWrite m dst i (m src i)) (i + 1) k dst j = m dst j
    rw [ih _ _ (by omega)]
    exact memWrite_ne m dst i _ dst j (Or.inr (by omega))

theorem copyEntries_upper (src dst : Nat) (hne : src ≠ dst) (j : Nat) :
    ∀ n m i, i ≤ j → j < i + n → copyEntries src dst m i n dst j = m src j := by
  intro n
  induction n with
  | zero => intro m i h1 h2; omega
  | succ k ih =>
    intro m i h1 h2
    show copyEntries src dst (memWrite m dst i (m src i)) (i + 1) k dst j = m src j
    rcases Nat.eq_or_lt_of_le h1 with heq | hlt
    · subst heq
      rw [copyEntries_lower src dst i k _ (i + 1) (by omega)]
      exact memWrite_self m dst i _
    · rw [ih _ _ (by omega) (by omega)]
      exact memWrite_ne m dst i _ src j (Or.inl hne)

/-- Claim C3: a successful `vmm_create_address_space` produces a PML4 whose
entries 256..511 equal the kernel PML4's entries at the moment of creation
and whose entries 0..255 are zero (the fresh table is distinct from the
kernel PML4 — the allocator only hands out free frames). -/
theorem C3_create_address_space (s : VMMState) (f : Nat) (s' : VMMState)
    (h : vmmCreateAddressSpace s = (f, s')) (hf : f ≠ 0) (hne : f ≠ s.pml4) :
    (∀ i, 256 ≤ i → i < 512 → s'.mem f i = s.mem s.pml4 i) ∧
    (∀ i, i < 256 → s'.mem f i = 0) := by
  unfold vmmCreateAddressSpace createPageTable at h
  cases halloc : pmmAllocPage s.pmm with
  | none =>
    rw [halloc] at h
    simp at h
    exact absurd h.1.symm hf
  | some p =>
    obtain ⟨t, pmm'⟩ := p
    rw [halloc] at h
    by_cases ht : t = 0
    · subst ht
      simp at h
      exact absurd h.1.symm hf
    · simp only [ht, if_neg, ite_false, if_false] at h
      simp [ht] at h
      obtain ⟨hft, hs'⟩ := h
      subst hft
      subst hs'
      constructor
      · intro i hi1 hi2
        dsimp only
        rw [copyEntries_upper s.pml4 t (Ne.symm hne) i 256 _ 256 hi1 (by omega)]
        simp [zeroFrame, Ne.symm hne]
      · intro i hi
        dsimp only
        rw [copyEntries_lower s.pml4 t i 256 _ 256 (by omega)]
        simp [zeroFrame]

/-- Witness for C3 at `cexVMMFree`: the fresh PML4 frame is `0x100000`;
its upper half equals the kernel PML4's (entry 256 is 0 there) and its
lower half is zero. -/
theorem C3_create_address_space_witness :
    (0x100000 : Nat) ≠ 0 ∧ (0x100000 : Nat) ≠ cexVMMFree.pml4 ∧
    ((∀ i, 256 ≤ i → i < 512 →
        (vmmCreateAddressSpace cexVMMFree).snd.mem 0x100000 i =
          cexVMMFree.mem cexVMMFree.pml4 i) ∧
      (∀ i, i < 256 → (vmmCreateAddressSpace cexVMMFree).snd.mem 0x100000 i = 0)) :=
  ⟨by decide, by decide,
    C3_create_address_space cexVMMFree 0x100000 (vmmCreateAddressSpace cexVMMFree).snd
      rfl (by decide) (by decide)⟩

/-! Bit-level lemmas for the map/translate/unmap theorem. -/

theorem ADDR_MASK_testBit (i : Nat) :
    ADDR_MASK.testBit i = (decide (12 ≤ i) && decide (i < 64)) := by
  have h : ADDR_MASK = (2 ^ 52 - 1) <<< 12 := by norm_num [ADDR_MASK, Nat.shiftLeft_eq]
  rw [h, Nat.testBit_shiftLeft, Nat.testBit_two_pow_sub_one]
  by_cases h12 : 12 ≤ i
  · simp only [ge_iff_le, h12, decide_True, Bool.true_and]
    rw [decide_eq_decide]
    omega
  · simp [h12]

theorem testBit_low_of_aligned {v i : Nat} (hal : v % 4096 = 0) (h : i < 12) :
    v.testBit i = false := by
  have h4096 : (2 : Nat) ^ 12 = 4096 := by norm_num
  have h1 := Nat.testBit_mod_two_pow v 12 i
  rw [h4096, hal, Nat.zero_testBit] at h1
  cases hb : v.testBit i
  · rfl
  · rw [hb] at h1
    simp [h] at h1

theorem testBit_high_of_lt {v i n : Nat} (hlt : v < 2 ^ n) (h : n ≤ i) :
    v.testBit i = false :=
  Nat.testBit_lt_two_pow (lt_of_lt_of_le hlt (Nat.pow_le_pow_right (by norm_num) h))

theorem and_mask_of_aligned {v : Nat} (hlt : v < 2 ^ 64) (hal : v % 4096 = 0) :
    v &&& ADDR_MASK = v := by
  apply Nat.eq_of_testBit_eq
  intro i
  rw [Nat.testBit_and, ADDR_MASK_testBit]
  by_cases h1 : i < 12
  · rw [testBit_low_of_aligned hal h1]
    simp
  · by_cases h2 : i < 64
    · simp [Nat.le_of_not_lt h1, h2]
    · rw [testBit_high_of_lt hlt (by omega)]
      simp

theorem hwFlags_lt {nx : Bool} {flags : Nat}
    (h : flags &&& VMM_FLAG_NO_EXECUTE = 0 ∨ nx = false) :
    hwFlags nx flags < 2 ^ 11 := by
  have hlast :
      (if flags &&& VMM_FLAG_NO_EXECUTE ≠ 0 ∧ nx = true then PAGE_NO_EXECUTE else 0) = 0 := by
    rcases h with h | h
    · rw [if_neg]
      rintro ⟨hc, -⟩
      exact hc h
    · rw [if_neg]
      rintro ⟨-, hc⟩
      rw [h] at hc
      exact Bool.false_ne_true hc
  have hb : ∀ a b : Nat, a < 2 ^ 11 → b < 2 ^ 11 → a ||| b < 2 ^ 11 :=
    fun a b ha hbb => Nat.or_lt_two_pow ha hbb
  unfold hwFlags
  rw [hlast]
  refine hb _ _ (hb _ _ (hb _ _ (hb _ _ (hb _ _ (hb _ _ (hb _ _ (by decide) ?_) ?_) ?_) ?_) ?_) ?_) (by decide)
  all_goals split <;> decide

theorem hwFlags_testBit_zero (nx : Bool) (flags : Nat) :
    (hwFlags nx flags).testBit 0 = true := by
  unfold hwFlags
  simp only [Nat.testBit_or]
  have h1 : PAGE_PRESENT.testBit 0 = true := by decide
  simp [h1]

theorem entryAddr_or_small {phys hw : Nat} (hpa : phys % 4096 = 0)
    (hp64 : phys < 2 ^ 64) (hhw : hw < 2 ^ 11) :
    entryAddr (phys ||| hw) = phys := by
  unfold entryAddr
  apply Nat.eq_of_testBit_eq
  intro i
  rw [Nat.testBit_and, Nat.testBit_or, ADDR_MASK_testBit]
  by_cases h1 : i < 12
  · rw [testBit_low_of_aligned hpa h1]
    cases hbw : hw.testBit i
    · simp [hbw, (by omega : ¬ (12 ≤ i))]
    · simp only [hbw, Bool.false_or, Bool.true_and]
      rw [(by simp; omega : decide (12 ≤ i) = false)]
      simp
  · rw [testBit_high_of_lt hhw (by omega)]
    by_cases h2 : i < 64
    · simp [Nat.le_of_not_lt h1, h2]
    · rw [testBit_high_of_lt hp64 (by omega)]
      simp [h2]

theorem or_testBit_zero_true {a b : Nat} (hb : b.testBit 0 = true) :
    (a ||| b).testBit 0 = true := by
  rw [Nat.testBit_or, hb, Bool.or_true]

theorem and_fff_of_aligned {v : Nat} (hal : v % 4096 = 0) : v &&& 0xFFF = 0 := by
  apply Nat.eq_of_testBit_eq
  intro i
  rw [Nat.testBit_and, Nat.zero_testBit]
  by_cases h : i < 12
  · rw [testBit_low_of_aligned hal h]
    simp
  · rw [testBit_high_of_lt (show (0xFFF : Nat) < 2 ^ 12 by norm_num) (by omega)]
    simp

theorem zeroFrame_self (m : Mem) (f j : Nat) : zeroFrame m f f j = 0 := by
  simp [zeroFrame]

theorem zeroFrame_ne (m : Mem) (f g j : Nat) (h : g ≠ f) : zeroFrame m f g j = m g j := by
  simp [zeroFrame, h]

theorem newTableEntry_norm (t virt : Nat) :
    newTableEntry t virt = t ||| (if virt < 2 ^ 63 then 7 else 3) := by
  unfold newTableEntry
  by_cases hv : virt < 2 ^ 63
  · simp only [hv, if_true, ite_true]
    rw [Nat.lor_assoc, Nat.lor_assoc]
    rfl
  · simp only [hv, if_false, ite_false]
    rw [Nat.lor_assoc]
    rfl

theorem newTableEntry_addr {t : Nat} (virt : Nat) (ha : t % 4096 = 0) (h63 : t < 2 ^ 63) :
    entryAddr (newTableEntry t virt) = t := by
  rw [newTableEntry_norm]
  exact entryAddr_or_small ha (lt_trans h63 (by norm_num)) (by split <;> decide)

theorem newTableEntry_present (t virt : Nat) :
    (newTableEntry t virt).testBit 0 = true := by
  rw [newTableEntry_norm]
  exact or_testBit_zero_true (by split <;> decide)

theorem newTableEntry_not_huge {t : Nat} (virt : Nat) (ha : t % 4096 = 0) :
    (newTableEntry t virt).testBit 7 = false := by
  rw [newTableEntry_norm, Nat.testBit_or, testBit_low_of_aligned ha (by norm_num)]
  simp only [Bool.false_or]
  split <;> decide

theorem ensureTable_present (s : VMMState) (frame idx virt : Nat)
    (h : (s.mem frame idx).testBit 0 = true) :
    ensureTable s frame idx virt = (true, s) := by
  unfold ensureTable
  rw [if_pos h]

theorem ensureTable_absent (s : VMMState) (frame idx virt t : Nat) (pmm' : PMMState)
    (habs : (s.mem frame idx).testBit 0 = false)
    (halloc : pmmAllocPage s.pmm = some (t, pmm')) (ht0 : t ≠ 0) :
    ensureTable s frame idx virt =
      (true, { s with pmm := pmm', mem := memWrite (zeroFrame s.mem t) frame idx (newTableEntry t virt) }) := by
  unfold ensureTable
  rw [if_neg (by simp [habs])]
  simp only [halloc]
  rw [if_neg ht0]

/-- Shared walk lemma: in a state whose tables exhibit `walkPath` for
`virt` with terminal entry `phys | hw_flags`, translation returns `phys`,
and `vmm_unmap_page` succeeds and leaves `virt` unmapped. -/
theorem translate_unmap_of_path (s : VMMState) (virt phys flags pdpt pd pt : Nat)
    (hv0 : virt ≠ 0) (hva : virt % 4096 = 0) (hv64 : virt < 2 ^ 64) (hvh : virt < s.hhdm)
    (hpa : phys % 4096 = 0) (hp64 : phys < 2 ^ 64)
    (hnx : flags &&& VMM_FLAG_NO_EXECUTE = 0 ∨ s.usingNX = false)
    (hpml4 : s.pml4 ≠ 0)
    (hpath : walkPath s virt pdpt pd pt (phys ||| hwFlags s.usingNX flags)) :
    virtToPhys s virt = phys ∧
    (vmmUnmapPage s virt).fst = true ∧
    vmmIsMapped (vmmUnmapPage s virt).snd virt = false ∧
    virtToPhys (vmmUnmapPage s virt).snd virt = 0 := by
  obtain ⟨h4, hpdpt, hpdpt0, h3, h3h, hpd, hpd0, h2, h2h, hpt, hpt0, h1, hd4, hd3, hd2⟩ := hpath
  have hmask : virt &&& ADDR_MASK = virt := and_mask_of_aligned hv64 hva
  have hew : entryAddr (phys ||| hwFlags s.usingNX flags) = phys :=
    entryAddr_or_small hpa hp64 (hwFlags_lt hnx)
  have heb : (phys ||| hwFlags s.usingNX flags).testBit 0 = true :=
    or_testBit_zero_true (hwFlags_testBit_zero s.usingNX flags)
  have hfff : virt &&& 0xFFF = 0 := and_fff_of_aligned hva
  have hnh : ¬ s.hhdm ≤ virt := by omega
  have htrans : virtToPhys s virt = phys := by
    unfold virtToPhys
    rw [if_neg hnh, if_neg hpml4]
    simp only [h4, h3, h3h, h2, h2h, hpdpt, hpd, hpt, h1]
    simp [hpdpt0, hpd0, hpt0, heb, hew, hfff]
  have hunmap : vmmUnmapPage s virt = (true, { s with mem := memWrite s.mem pt (ptIndex virt) 0 }) := by
    unfold vmmUnmapPage
    rw [if_neg hv0]
    simp only [hmask]
    rw [if_neg hpml4]
    simp only [h4, h3, h3h, h2, h2h, hpdpt, hpd, hpt, h1]
    simp [hpdpt0, hpd0, hpt0, heb]
  have q4 : memWrite s.mem pt (ptIndex virt) 0 s.pml4 (pml4Index virt) = s.mem s.pml4 (pml4Index virt) :=
    memWrite_ne _ _ _ _ _ _ (Or.inl (Ne.symm hd4))
  have q3 : memWrite s.mem pt (ptIndex virt) 0 pdpt (pdptIndex virt) = s.mem pdpt (pdptIndex virt) :=
    memWrite_ne _ _ _ _ _ _ (Or.inl (Ne.symm hd3))
  have q2 : memWrite s.mem pt (ptIndex virt) 0 pd (pdIndex virt) = s.mem pd (pdIndex virt) :=
    memWrite_ne _ _ _ _ _ _ (Or.inl (Ne.symm hd2))
  have q1 : memWrite s.mem pt (ptIndex virt) 0 pt (ptIndex virt) = 0 := memWrite_self _ _ _ _
  have hism : vmmIsMapped { s with mem := memWrite s.mem pt (ptIndex virt) 0 } virt = false := by
    unfold vmmIsMapped
    dsimp only
    rw [if_neg hnh, if_neg hpml4]
    simp only [q4, q3, q2, q1, h4, h3, h3h, h2, h2h, hpdpt, hpd, hpt]
    simp [hpdpt0, hpd0, hpt0, Nat.zero_testBit]
  have htr0 : virtToPhys { s with mem := memWrite s.mem pt (ptIndex virt) 0 } virt = 0 := by
    unfold virtToPhys
    dsimp only
    rw [if_neg hnh, if_neg hpml4]
    simp only [q4, q3, q2, q1, h4, h3, h3h, h2, h2h, hpdpt, hpd, hpt]
    simp [hpdpt0, hpd0, hpt0, Nat.zero_testBit]
  rw [hunmap]
  exact ⟨htrans, rfl, hism, htr0⟩

/-- A successful `vmm_map_page` that leaves a `walkPath` behind satisfies
the full map/translate/unmap round trip. -/
theorem mapRoundTrip_of_path (s : VMMState) (virt phys flags : Nat) (s2 : VMMState)
    (pdpt pd pt : Nat)
    (hv0 : virt ≠ 0) (hva : virt % 4096 = 0) (hv64 : virt < 2 ^ 64) (hvh : virt < s.hhdm)
    (hpa : phys % 4096 = 0) (hp64 : phys < 2 ^ 64)
    (hnx : flags &&& VMM_FLAG_NO_EXECUTE = 0 ∨ s.usingNX = false)
    (hpml4 : s.pml4 ≠ 0)
    (hmap : vmmMapPage s virt phys flags = (true, s2))
    (hh : s2.hhdm = s.hhdm) (hn : s2.usingNX = s.usingNX) (hp : s2.pml4 = s.pml4)
    (hpath : walkPath s2 virt pdpt pd pt (phys ||| hwFlags s.usingNX flags)) :
    mapRoundTrip s virt phys flags := by
  unfold mapRoundTrip
  rw [hmap]
  have h := translate_unmap_of_path s2 virt phys flags pdpt pd pt hv0 hva hv64
    (by rw [hh]; exact hvh) hpa hp64
    (by rw [hn]; exact hnx) (by rw [hp]; exact hpml4) (by rw [hn]; exact hpath)
  exact ⟨rfl, h.1, h.2.1, h.2.2.1, h.2.2.2⟩


/-- Claim C2 (amended): for a page-aligned nonzero `virt` below the HHDM
offset and a page-aligned nonzero `phys`, whenever `vmm_map_page` succeeds
— whether the walk for `virt` finds all intermediate tables already
present (first conjunct), or allocates the page table (second), the page
directory and page table (third), or all three levels (fourth) — the
translation then returns `phys`, and a subsequent `vmm_unmap_page`
succeeds and leaves `virt` unmapped: `vmm_is_mapped` is false and the
translation is 0.  The four conjuncts are exhaustive for a successful
call: an absent entry at one level forces allocation of zeroed tables at
every level below it.  Pre-existing entries on the walk must be non-huge
(the translation checks the HUGE bit) and point to nonzero, distinct
frames, and the PFA must hand out fresh page-aligned frames for missing
tables — well-formedness the kernel maintains.  The flags must not
request NO_EXECUTE on NX-capable hardware: with NO_EXECUTE the
translation instead returns `phys + 2^63`, because `PAGE_ADDR_MASK`
keeps bit 63 (see the counterexample). -/
theorem C2_map_translate_unmap (s : VMMState) (virt phys flags : Nat)
    (hv0 : virt ≠ 0) (hva : virt % 4096 = 0) (hv64 : virt < 2 ^ 64) (hvh : virt < s.hhdm)
    (hp0 : phys ≠ 0) (hpa : phys % 4096 = 0) (hp64 : phys < 2 ^ 64)
    (hnx : flags &&& VMM_FLAG_NO_EXECUTE = 0 ∨ s.usingNX = false)
    (hpml4 : s.pml4 ≠ 0) :
    (∀ pdpt pd pt,
      (s.mem s.pml4 (pml4Index virt)).testBit 0 = true →
      entryAddr (s.mem s.pml4 (pml4Index virt)) = pdpt → pdpt ≠ 0 →
      (s.mem pdpt (pdptIndex virt)).testBit 0 = true →
      (s.mem pdpt (pdptIndex virt)).testBit 7 = false →
      entryAddr (s.mem pdpt (pdptIndex virt)) = pd → pd ≠ 0 →
      (s.mem pd (pdIndex virt)).testBit 0 = true →
      (s.mem pd (pdIndex virt)).testBit 7 = false →
      entryAddr (s.mem pd (pdIndex virt)) = pt → pt ≠ 0 →
      pt ≠ s.pml4 → pt ≠ pdpt → pt ≠ pd →
      mapRoundTrip s virt phys flags) ∧
    (∀ pdpt pd t1 pmm1,
      (s.mem s.pml4 (pml4Index virt)).testBit 0 = true →
      entryAddr (s.mem s.pml4 (pml4Index virt)) = pdpt → pdpt ≠ 0 →
      (s.mem pdpt (pdptIndex virt)).testBit 0 = true →
      (s.mem pdpt (pdptIndex virt)).testBit 7 = false →
      entryAddr (s.mem pdpt (pdptIndex virt)) = pd → pd ≠ 0 →
      (s.mem pd (pdIndex virt)).testBit 0 = false →
      pmmAllocPage s.pmm = some (t1, pmm1) →
      t1 ≠ 0 → t1 % 4096 = 0 → t1 < 2 ^ 63 →
      t1 ≠ s.pml4 → t1 ≠ pdpt → t1 ≠ pd →
      pd ≠ s.pml4 → pd ≠ pdpt →
      mapRoundTrip s virt phys flags) ∧
    (∀ pdpt t1 t2 pmm1 pmm2,
      (s.mem s.pml4 (pml4Index virt)).testBit 0 = true →
      entryAddr (s.mem s.pml4 (pml4Index virt)) = pdpt → pdpt ≠ 0 →
      (s.mem pdpt (pdptIndex virt)).testBit 0 = false →
      pmmAllocPage s.pmm = some (t1, pmm1) →
      pmmAllocPage pmm1 = some (t2, pmm2) →
      t1 ≠ 0 → t1 % 4096 = 0 → t1 < 2 ^ 63 →
      t2 ≠ 0 → t2 % 4096 = 0 → t2 < 2 ^ 63 →
      t1 ≠ s.pml4 → t1 ≠ pdpt → t2 ≠ s.pml4 → t2 ≠ pdpt → t2 ≠ t1 →
      pdpt ≠ s.pml4 →
      mapRoundTrip s virt phys flags) ∧
    (∀ t1 t2 t3 pmm1 pmm2 pmm3,
      (s.mem s.pml4 (pml4Index virt)).testBit 0 = false →
      pmmAllocPage s.pmm = some (t1, pmm1) →
      pmmAllocPage pmm1 = some (t2, pmm2) →
      pmmAllocPage pmm2 = some (t3, pmm3) →
      t1 ≠ 0 → t1 % 4096 = 0 → t1 < 2 ^ 63 →
      t2 ≠ 0 → t2 % 4096 = 0 → t2 < 2 ^ 63 →
      t3 ≠ 0 → t3 % 4096 = 0 → t3 < 2 ^ 63 →
      t1 ≠ s.pml4 → t2 ≠ s.pml4 → t3 ≠ s.pml4 →
      t2 ≠ t1 → t3 ≠ t1 → t3 ≠ t2 →
      mapRoundTrip s virt phys flags) := by
  have hmask : virt &&& ADDR_MASK = virt := and_mask_of_aligned hv64 hva
  have hpmask : phys &&& ADDR_MASK = phys := and_mask_of_aligned hp64 hpa
  refine ⟨?_, ?_, ?_, ?_⟩
  -- Scenario D: all three intermediate entries already present.
  · intro pdpt pd pt h4 hpdpt hpdpt0 h3 h3h hpd hpd0 h2 h2h hpt hpt0 hd4 hd3 hd2
    have hE4 := ensureTable_present s s.pml4 (pml4Index virt) virt h4
    have hE3 := ensureTable_present s pdpt (pdptIndex virt) virt h3
    have hE2 := ensureTable_present s pd (pdIndex virt) virt h2
    have hmap : vmmMapPage s virt phys flags =
        (true, { s with mem := memWrite s.mem pt (ptIndex virt) (phys ||| hwFlags s.usingNX flags) }) := by
      unfold vmmMapPage
      rw [if_neg hv0, if_neg hp0]
      simp only [hmask, hpmask, hE4, hE3, hE2, hpdpt, hpd, hpt, hpdpt0, hpd0, hpt0,
        ite_false, if_false, ite_true, if_true]
      rw [if_neg hpml4]
    have r4 : memWrite s.mem pt (ptIndex virt) (phys ||| hwFlags s.usingNX flags) s.pml4 (pml4Index virt) = s.mem s.pml4 (pml4Index virt) := by
      simp [memWrite, Ne.symm hd4]
    have r3 : memWrite s.mem pt (ptIndex virt) (phys ||| hwFlags s.usingNX flags) pdpt (pdptIndex virt) = s.mem pdpt (pdptIndex virt) := by
      simp [memWrite, Ne.symm hd3]
    have r2 : memWrite s.mem pt (ptIndex virt) (phys ||| hwFlags s.usingNX flags) pd (pdIndex virt) = s.mem pd (pdIndex virt) := by
      simp [memWrite, Ne.symm hd2]
    have r1 : memWrite s.mem pt (ptIndex virt) (phys ||| hwFlags s.usingNX flags) pt (ptIndex virt) = phys ||| hwFlags s.usingNX flags :=
      memWrite_self _ _ _ _
    have hpath : walkPath { s with mem := memWrite s.mem pt (ptIndex virt) (phys ||| hwFlags s.usingNX flags) } virt pdpt pd pt (phys ||| hwFlags s.usingNX flags) := by
      unfold walkPath
      dsimp only
      exact ⟨by rw [r4]; exact h4, by rw [r4]; exact hpdpt, hpdpt0,
        by rw [r3]; exact h3, by rw [r3]; exact h3h, by rw [r3]; exact hpd, hpd0,
        by rw [r2]; exact h2, by rw [r2]; exact h2h, by rw [r2]; exact hpt, hpt0,
        r1, hd4, hd3, hd2⟩
    exact mapRoundTrip_of_path s virt phys flags _ pdpt pd pt hv0 hva hv64 hvh hpa hp64 hnx hpml4 hmap rfl rfl rfl hpath
  -- Scenario C: PD entry missing; one table allocated.
  · intro pdpt pd t1 pmm1 h4 hpdpt hpdpt0 h3 h3h hpd hpd0 h2abs halloc1 ht10 ht1a ht1b hf1 hf2 hf3 hdp hdp2
    have hE4 := ensureTable_present s s.pml4 (pml4Index virt) virt h4
    have hE3 := ensureTable_present s pdpt (pdptIndex virt) virt h3
    have hE2 := ensureTable_absent s pd (pdIndex virt) virt t1 pmm1 h2abs halloc1 ht10
    have hptE : entryAddr (memWrite (zeroFrame s.mem t1) pd (pdIndex virt) (newTableEntry t1 virt) pd (pdIndex virt)) = t1 := by
      rw [memWrite_self]
      exact newTableEntry_addr virt ht1a ht1b
    have hmap : vmmMapPage s virt phys flags =
        (true, { s with pmm := pmm1, mem := memWrite (memWrite (zeroFrame s.mem t1) pd (pdIndex virt) (newTableEntry t1 virt)) t1 (ptIndex virt) (phys ||| hwFlags s.usingNX flags) }) := by
      unfold vmmMapPage
      rw [if_neg hv0, if_neg hp0]
      simp only [hmask, hpmask, hE4, hE3, hE2, hpdpt, hpd, hpdpt0, hpd0, hptE, ht10,
        ite_false, if_false, ite_true, if_true]
      rw [if_neg hpml4]
    have c4 : memWrite (memWrite (zeroFrame s.mem t1) pd (pdIndex virt) (newTableEntry t1 virt)) t1 (ptIndex virt) (phys ||| hwFlags s.usingNX flags) s.pml4 (pml4Index virt) = s.mem s.pml4 (pml4Index virt) := by
      simp [memWrite, zeroFrame, Ne.symm hf1, Ne.symm hdp]
    have c3 : memWrite (memWrite (zeroFrame s.mem t1) pd (pdIndex virt) (newTableEntry t1 virt)) t1 (ptIndex virt) (phys ||| hwFlags s.usingNX flags) pdpt (pdptIndex virt) = s.mem pdpt (pdptIndex virt) := by
      simp [memWrite, zeroFrame, Ne.symm hf2, Ne.symm hdp2]
    have c2 : memWrite (memWrite (zeroFrame s.mem t1) pd (pdIndex virt) (newTableEntry t1 virt)) t1 (ptIndex virt) (phys ||| hwFlags s.usingNX flags) pd (pdIndex virt) = newTableEntry t1 virt := by
      simp [memWrite, Ne.symm hf3]
    have c1 : memWrite (memWrite (zeroFrame s.mem t1) pd (pdIndex virt) (newTableEntry t1 virt)) t1 (ptIndex virt) (phys ||| hwFlags s.usingNX flags) t1 (ptIndex virt) = phys ||| hwFlags s.usingNX flags :=
      memWrite_self _ _ _ _
    have hpath : walkPath { s with pmm := pmm1, mem := memWrite (memWrite (zeroFrame s.mem t1) pd (pdIndex virt) (newTableEntry t1 virt)) t1 (ptIndex virt) (phys ||| hwFlags s.usingNX flags) } virt pdpt pd t1 (phys ||| hwFlags s.usingNX flags) := by
      unfold walkPath
      dsimp only
      exact ⟨by rw [c4]; exact h4, by rw [c4]; exact hpdpt, hpdpt0,
        by rw [c3]; exact h3, by rw [c3]; exact h3h, by rw [c3]; exact hpd, hpd0,
        by rw [c2]; exact newTableEntry_present t1 virt,
        by rw [c2]; exact newTableEntry_not_huge virt ht1a,
        by rw [c2]; exact newTableEntry_addr virt ht1a ht1b, ht10,
        c1, hf1, hf2, hf3⟩
    exact mapRoundTrip_of_path s virt phys flags _ pdpt pd t1 hv0 hva hv64 hvh hpa hp64 hnx hpml4 hmap rfl rfl rfl hpath
  -- Scenario B: PDPT entry missing; two tables allocated.
  · intro pdpt t1 t2 pmm1 pmm2 h4 hpdpt hpdpt0 h3abs halloc1 halloc2 ht10 ht1a ht1b ht20 ht2a ht2b hf1 hf2 hg1 hg2 hg3 hdd
    have hE4 := ensureTable_present s s.pml4 (pml4Index virt) virt h4
    have hE3 := ensureTable_absent s pdpt (pdptIndex virt) virt t1 pmm1 h3abs halloc1 ht10
    have hpdE : entryAddr (memWrite (zeroFrame s.mem t1) pdpt (pdptIndex virt) (newTableEntry t1 virt) pdpt (pdptIndex virt)) = t1 := by
      rw [memWrite_self]
      exact newTableEntry_addr virt ht1a ht1b
    have habs2 : ((memWrite (zeroFrame s.mem t1) pdpt (pdptIndex virt) (newTableEntry t1 virt)) t1 (pdIndex virt)).testBit 0 = false := by
      rw [memWrite_ne _ _ _ _ _ _ (Or.inl hf2), zeroFrame_self]
      exact Nat.zero_testBit 0
    have hE2 := ensureTable_absent { s with pmm := pmm1, mem := memWrite (zeroFrame s.mem t1) pdpt (pdptIndex virt) (newTableEntry t1 virt) } t1 (pdIndex virt) virt t2 pmm2 habs2 halloc2 ht20
    have hptE : entryAddr (memWrite (zeroFrame (memWrite (zeroFrame s.mem t1) pdpt (pdptIndex virt) (newTableEntry t1 virt)) t2) t1 (pdIndex virt) (newTableEntry t2 virt) t1 (pdIndex virt)) = t2 := by
      rw [memWrite_self]
      exact newTableEntry_addr virt ht2a ht2b
    have hmap : vmmMapPage s virt phys flags =
        (true, { s with pmm := pmm2, mem := memWrite (memWrite (zeroFrame (memWrite (zeroFrame s.mem t1) pdpt (pdptIndex virt) (newTableEntry t1 virt)) t2) t1 (pdIndex virt) (newTableEntry t2 virt)) t2 (ptIndex virt) (phys ||| hwFlags s.usingNX flags) }) := by
      unfold vmmMapPage
      rw [if_neg hv0, if_neg hp0]
      simp only [hmask, hpmask, hE4, hE3, hE2, hpdpt, hpdpt0, hpdE, ht10, hptE, ht20,
        ite_false, if_false, ite_true, if_true]
      rw [if_neg hpml4]
    have b4 : memWrite (memWrite (zeroFrame (memWrite (zeroFrame s.mem t1) pdpt (pdptIndex virt) (newTableEntry t1 virt)) t2) t1 (pdIndex virt) (newTableEntry t2 virt)) t2 (ptIndex virt) (phys ||| hwFlags s.usingNX flags) s.pml4 (pml4Index virt) = s.mem s.pml4 (pml4Index virt) := by
      simp [memWrite, zeroFrame, Ne.symm hg1, Ne.symm hf1, Ne.symm hdd]
    have b3 : memWrite (memWrite (zeroFrame (memWrite (zeroFrame s.mem t1) pdpt (pdptIndex virt) (newTableEntry t1 virt)) t2) t1 (pdIndex virt) (newTableEntry t2 virt)) t2 (ptIndex virt) (phys ||| hwFlags s.usingNX flags) pdpt (pdptIndex virt) = newTableEntry t1 virt := by
      simp [memWrite, zeroFrame, Ne.symm hg2, Ne.symm hf2]
    have b2 : memWrite (memWrite (zeroFrame (memWrite (zeroFrame s.mem t1) pdpt (pdptIndex virt) (newTableEntry t1 virt)) t2) t1 (pdIndex virt) (newTableEntry t2 virt)) t2 (ptIndex virt) (phys ||| hwFlags s.usingNX flags) t1 (pdIndex virt) = newTableEntry t2 virt := by
      simp [memWrite, Ne.symm hg3]
    have b1 : memWrite (memWrite (zeroFrame (memWrite (zeroFrame s.mem t1) pdpt (pdptIndex virt) (newTableEntry t1 virt)) t2) t1 (pdIndex virt) (newTableEntry t2 virt)) t2 (ptIndex virt) (phys ||| hwFlags s.usingNX flags) t2 (ptIndex virt) = phys ||| hwFlags s.usingNX flags :=
      memWrite_self _ _ _ _
    have hpath : walkPath { s with pmm := pmm2, mem := memWrite (memWrite (zeroFrame (memWrite (zeroFrame s.mem t1) pdpt (pdptIndex virt) (newTableEntry t1 virt)) t2) t1 (pdIndex virt) (newTableEntry t2 virt)) t2 (ptIndex virt) (phys ||| hwFlags s.usingNX flags) } virt pdpt t1 t2 (phys ||| hwFlags s.usingNX flags) := by
      unfold walkPath
      dsimp only
      exact ⟨by rw [b4]; exact h4, by rw [b4]; exact hpdpt, hpdpt0,
        by rw [b3]; exact newTableEntry_present t1 virt,
        by rw [b3]; exact newTableEntry_not_huge virt ht1a,
        by rw [b3]; exact newTableEntry_addr virt ht1a ht1b, ht10,
        by rw [b2]; exact newTableEntry_present t2 virt,
        by rw [b2]; exact newTableEntry_not_huge virt ht2a,
        by rw [b2]; exact newTableEntry_addr virt ht2a ht2b, ht20,
        b1, hg1, hg2, hg3⟩
    exact mapRoundTrip_of_path s virt phys flags _ pdpt t1 t2 hv0 hva hv64 hvh hpa hp64 hnx hpml4 hmap rfl rfl rfl hpath
  -- Scenario A: PML4 entry missing; all three tables allocated.
  · intro t1 t2 t3 pmm1 pmm2 pmm3 h4abs halloc1 halloc2 halloc3 ht10 ht1a ht1b ht20 ht2a ht2b ht30 ht3a ht3b hp1 hp2 hp3 hq1 hq2 hq3
    have hE4 := ensureTable_absent s s.pml4 (pml4Index virt) virt t1 pmm1 h4abs halloc1 ht10
    have hpdptE : entryAddr (memWrite (zeroFrame s.mem t1) s.pml4 (pml4Index virt) (newTableEntry t1 virt) s.pml4 (pml4Index virt)) = t1 := by
      rw [memWrite_self]
      exact newTableEntry_addr virt ht1a ht1b
    have habs3 : ((memWrite (zeroFrame s.mem t1) s.pml4 (pml4Index virt) (newTableEntry t1 virt)) t1 (pdptIndex virt)).testBit 0 = false := by
      rw [memWrite_ne _ _ _ _ _ _ (Or.inl hp1), zeroFrame_self]
      exact Nat.zero_testBit 0
    have hE3 := ensureTable_absent { s with pmm := pmm1, mem := memWrite (zeroFrame s.mem t1) s.pml4 (pml4Index virt) (newTableEntry t1 virt) } t1 (pdptIndex virt) virt t2 pmm2 habs3 halloc2 ht20
    have hpdE : entryAddr (memWrite (zeroFrame (memWrite (zeroFrame s.mem t1) s.pml4 (pml4Index virt) (newTableEntry t1 virt)) t2) t1 (pdptIndex virt) (newTableEntry t2 virt) t1 (pdptIndex virt)) = t2 := by
      rw [memWrite_self]
      exact newTableEntry_addr virt ht2a ht2b
    have habs2 : ((memWrite (zeroFrame (memWrite (zeroFrame s.mem t1) s.pml4 (pml4Index virt) (newTableEntry t1 virt)) t2) t1 (pdptIndex virt) (newTableEntry t2 virt)) t2 (pdIndex virt)).testBit 0 = false := by
      rw [memWrite_ne _ _ _ _ _ _ (Or.inl hq1), zeroFrame_self]
      exact Nat.zero_testBit 0
    have hE2 := ensureTable_absent { s with pmm := pmm2, mem := memWrite (zeroFrame (memWrite (zeroFrame s.mem t1) s.pml4 (pml4Index virt) (newTableEntry t1 virt)) t2) t1 (pdptIndex virt) (newTableEntry t2 virt) } t2 (pdIndex virt) virt t3 pmm3 habs2 halloc3 ht30
    have hptE : entryAddr (memWrite (zeroFrame (memWrite (zeroFrame (memWrite (zeroFrame s.mem t1) s.pml4 (pml4Index virt) (newTableEntry t1 virt)) t2) t1 (pdptIndex virt) (newTableEntry t2 virt)) t3) t2 (pdIndex virt) (newTableEntry t3 virt) t2 (pdIndex virt)) = t3 := by
      rw [memWrite_self]
      exact newTableEntry_addr virt ht3a ht3b
    have hmap : vmmMapPage s virt phys flags =
        (true, { s with pmm := pmm3, mem := memWrite (memWrite (zeroFrame (memWrite (zeroFrame (memWrite (zeroFrame s.mem t1) s.pml4 (pml4Index virt) (newTableEntry t1 virt)) t2) t1 (pdptIndex virt) (newTableEntry t2 virt)) t3) t2 (pdIndex virt) (newTableEntry t3 virt)) t3 (ptIndex virt) (phys ||| hwFlags s.usingNX flags) }) := by
      unfold vmmMapPage
      rw [if_neg hv0, if_neg hp0]
      simp only [hmask, hpmask, hE4, hE3, hE2, hpdptE, ht10, hpdE, ht20, hptE, ht30,
        ite_false, if_false, ite_true, if_true]
      rw [if_neg hpml4]
    have a4 : memWrite (memWrite (zeroFrame (memWrite (zeroFrame (memWrite (zeroFrame s.mem t1) s.pml4 (pml4Index virt) (newTableEntry t1 virt)) t2) t1 (pdptIndex virt) (newTableEntry t2 virt)) t3) t2 (pdIndex virt) (newTableEntry t3 virt)) t3 (ptIndex virt) (phys ||| hwFlags s.usingNX flags) s.pml4 (pml4Index virt) = newTableEntry t1 virt := by
      simp [memWrite, zeroFrame, Ne.symm hp1, Ne.symm hp2, Ne.symm hp3]
    have a3 : memWrite (memWrite (zeroFrame (memWrite (zeroFrame (memWrite (zeroFrame s.mem t1) s.pml4 (pml4Index virt) (newTableEntry t1 virt)) t2) t1 (pdptIndex virt) (newTableEntry t2 virt)) t3) t2 (pdIndex virt) (newTableEntry t3 virt)) t3 (ptIndex virt) (phys ||| hwFlags s.usingNX flags) t1 (pdptIndex virt) = newTableEntry t2 virt := by
      simp [memWrite, zeroFrame, Ne.symm hq2, Ne.symm hq1]
    have a2 : memWrite (memWrite (zeroFrame (memWrite (zeroFrame (memWrite (zeroFrame s.mem t1) s.pml4 (pml4Index virt) (newTableEntry t1 virt)) t2) t1 (pdptIndex virt) (newTableEntry t2 virt)) t3) t2 (pdIndex virt) (newTableEntry t3 virt)) t3 (ptIndex virt) (phys ||| hwFlags s.usingNX flags) t2 (pdIndex virt) = newTableEntry t3 virt := by
      simp [memWrite, Ne.symm hq3]
    have a1 : memWrite (memWrite (zeroFrame (memWrite (zeroFrame (memWrite (zeroFrame s.mem t1) s.pml4 (pml4Index virt) (newTableEntry t1 virt)) t2) t1 (pdptIndex virt) (newTableEntry t2 virt)) t3) t2 (pdIndex virt) (newTableEntry t3 virt)) t3 (ptIndex virt) (phys ||| hwFlags s.usingNX flags) t3 (ptIndex virt) = phys ||| hwFlags s.usingNX flags :=
      memWrite_self _ _ _ _
    have hpath : walkPath { s with pmm := pmm3, mem := memWrite (memWrite (zeroFrame (memWrite (zeroFrame (memWrite (zeroFrame s.mem t1) s.pml4 (pml4Index virt) (newTableEntry t1 virt)) t2) t1 (pdptIndex virt) (newTableEntry t2 virt)) t3) t2 (pdIndex virt) (newTableEntry t3 virt)) t3 (ptIndex virt) (phys ||| hwFlags s.usingNX flags) } virt t1 t2 t3 (phys ||| hwFlags s.usingNX flags) := by
      unfold walkPath
      dsimp only
      exact ⟨by rw [a4]; exact newTableEntry_present t1 virt,
        by rw [a4]; exact newTableEntry_addr virt ht1a ht1b, ht10,
        by rw [a3]; exact newTableEntry_present t2 virt,
        by rw [a3]; exact newTableEntry_not_huge virt ht2a,
        by rw [a3]; exact newTableEntry_addr virt ht2a ht2b, ht20,
        by rw [a2]; exact newTableEntry_present t3 virt,
        by rw [a2]; exact newTableEntry_not_huge virt ht3a,
        by rw [a2]; exact newTableEntry_addr virt ht3a ht3b, ht30,
        a1, hp3, hq2, hq3⟩
    exact mapRoundTrip_of_path s virt phys flags _ t1 t2 t3 hv0 hva hv64 hvh hpa hp64 hnx hpml4 hmap rfl rfl rfl hpath

/-- Counterexample to claim C2 as stated: mapping `0x400000` to `0x5000`
with `NO_EXECUTE` on NX-capable hardware succeeds, but the translation
returns `0x8000000000005000`, not `0x5000`: `virt_to_phys` extracts the
terminal entry with `PAGE_ADDR_MASK = ~0xFFF`, which retains the NX
bit 63. -/
theorem C2_counterexample :
    (vmmMapPage cexVMM 0x400000 0x5000 VMM_FLAG_NO_EXECUTE).fst = true ∧
    virtToPhys (vmmMapPage cexVMM 0x400000 0x5000 VMM_FLAG_NO_EXECUTE).snd 0x400000 =
      0x8000000000005000 ∧
    (0x8000000000005000 : Nat) ≠ 0x5000 :=
  ⟨by decide, by decide, by decide⟩

/-- Witness for the amended C2 at two concrete states: `cexVMM`, where the
walk for `0x400000` is fully populated (no allocation), and
`cexVMMEmpty`, where the PML4 is empty and the call allocates all three
intermediate tables from the PFA (frames `0x100000`, `0x101000`,
`0x102000`). -/
theorem C2_map_translate_unmap_witness :
    ((cexVMM.mem 0x3000 (pdIndex 0x400000)).testBit 0 = true ∧
      mapRoundTrip cexVMM 0x400000 0x5000 2) ∧
    ((cexVMMEmpty.mem cexVMMEmpty.pml4 (pml4Index 0x400000)).testBit 0 = false ∧
      pmmAllocPage cexVMMEmpty.pmm = some (0x100000, PMMState.mk [1] 0x100000 8) ∧
      mapRoundTrip cexVMMEmpty 0x400000 0x5000 2) :=
  ⟨⟨by decide,
    (C2_map_translate_unmap cexVMM 0x400000 0x5000 2 (by decide) (by decide) (by decide)
        (by decide) (by decide) (by decide) (by decide) (Or.inl (by decide)) (by decide)).1
      0x2000 0x3000 0x4000 (by decide) (by decide) (by decide) (by decide) (by decide)
      (by decide) (by decide) (by decide) (by decide) (by decide) (by decide) (by decide)
      (by decide) (by decide)⟩,
   ⟨by decide, by decide,
    (C2_map_translate_unmap cexVMMEmpty 0x400000 0x5000 2 (by decide) (by decide) (by decide)
        (by decide) (by decide) (by decide) (by decide) (Or.inl (by decide)) (by decide)).2.2.2
      0x100000 0x101000 0x102000 (PMMState.mk [1] 0x100000 8) (PMMState.mk [3] 0x100000 8)
      (PMMState.mk [7] 0x100000 8)
      (by decide) (by decide) (by decide) (by decide) (by decide) (by decide) (by decide)
      (by decide) (by decide) (by decide) (by decide) (by decide) (by decide) (by decide)
      (by decide) (by decide) (by decide) (by decide) (by decide)⟩⟩

end Kronos
